import Mathlib

/-!
Shallow embedding of the demand forecasting engine of SmartStockTracker
(`src/server/forecast.ts`) and proofs of the specification claims.

Modelling conventions:
* JavaScript numbers are modelled by the type `JS`: a finite value (an exact
  rational), an infinity of either sign, or `NaN`.  The finite rationals are
  an idealisation of binary floating point, but the special values produced
  by the engine's divisions (`0/0 = NaN`, `x/0 = ±∞`) and their propagation
  through `*`, `Math.round` and `Math.max` are modelled exactly, so the
  division-by-zero path of the seasonality step (all-zero history) is
  represented faithfully and reaches the output as `NaN`.
* Input demand values and the random draws are finite numbers, so they are
  plain rationals; special values can only originate inside the engine.
* Dates are modelled as abstract calendar-day indices (`ℤ`); "today" is a
  `Clock` carrying the day index of the current date together with its
  day-of-week (`0 = Sunday`, as returned by `Date.getDay()`), so that the
  weekday of `today + i` days is `(todayDow + i) % 7`.
* `Math.random()` is modelled as an explicit stream `rand : ℕ → ℚ` of draws
  (one draw per generated forecast point, indexed by the day offset), each
  draw lying in `[0, 1)` by hypothesis where needed.
* `Math.round` rounds half towards positive infinity, which coincides with
  Mathlib's `round` on `ℚ` (`round x = ⌊x + 1/2⌋`).
-/

namespace SmartStock

/-- A JavaScript numeric value as produced by the engine: a finite number
(modelled exactly as a rational), `+∞`/`-∞`, or `NaN`. -/
inductive JS where
  | num : ℚ → JS
  | inf : Bool → JS
  | nan : JS
deriving Repr, DecidableEq

namespace JS

/-- JavaScript multiplication on `JS` values: `NaN` propagates,
`0 * ±∞ = NaN`, otherwise infinities keep the sign rules. -/
def mul : JS → JS → JS
  | num x, num y => num (x * y)
  | num x, inf s => if x = 0 then nan else inf (s == decide (0 < x))
  | inf s, num x => if x = 0 then nan else inf (s == decide (0 < x))
  | inf s, inf t => inf (s == t)
  | _, _ => nan

/-- JavaScript division on `JS` values: `0/0 = NaN`, `x/0 = ±∞` for
`x ≠ 0` (the zero divisor is `+0`), finite division otherwise, `NaN`
propagates, and a finite value divided by an infinity is `0`. -/
def div : JS → JS → JS
  | num x, num y =>
      if y = 0 then (if x = 0 then nan else inf (decide (0 < x))) else num (x / y)
  | num _, inf _ => num 0
  | inf s, num y => inf (s == decide (0 ≤ y))
  | _, _ => nan

/-- `Math.round` on `JS` values: rounds a finite value half towards `+∞`,
and maps `±∞` and `NaN` to themselves. -/
def roundJS : JS → JS
  | num x => num (round x)
  | v => v

/-- `Math.max` on `JS` values: `NaN` if either argument is `NaN`, otherwise
the larger value with `+∞` dominating and `-∞` losing. -/
def max : JS → JS → JS
  | nan, _ => nan
  | _, nan => nan
  | inf true, _ => inf true
  | _, inf true => inf true
  | inf false, b => b
  | a, inf false => a
  | num x, num y => num (Max.max x y)

/-- The JavaScript comparison `v >= 0`: false for `NaN` and `-∞`, true for
`+∞` and nonnegative finite values. -/
def nonneg : JS → Prop
  | num q => 0 ≤ q
  | inf s => s = true
  | nan => False

end JS

/-- Structure `HistoricalDemand` from `forecast.ts`: a dated demand
observation (inputs are finite numbers). -/
structure HistoricalDemand where
  date : ℤ
  demand : ℚ
deriving Repr, DecidableEq

/-- Structure `DemandForecast` from `forecast.ts`: a dated forecast point;
the demand is a `JS` value because the engine's arithmetic can produce
`NaN`. -/
structure DemandForecast where
  date : ℤ
  demand : JS
deriving Repr, DecidableEq

/-- The ambient clock: the day index of "today" and its day of week
(`0 = Sunday` … `6 = Saturday`, the `Date.getDay()` convention). -/
structure Clock where
  todayDate : ℤ
  todayDow : ℕ
deriving Repr, DecidableEq

/-- Function `calculateMovingAverage` from `forecast.ts` (simple moving
average over the trailing window; average of everything when the data is
shorter; an empty list gives `0/0 = NaN`). -/
def calculateMovingAverage (data : List ℚ) (windowSize : ℕ) : JS :=
  if data.length < windowSize then
    JS.div (JS.num data.sum) (JS.num (data.length : ℚ))
  else
    JS.div (JS.num (data.drop (data.length - windowSize)).sum)
      (JS.num (windowSize : ℚ))

/-- Function `calculateWeightedMovingAverage` from `forecast.ts`.  When the
data is shorter than the weight vector the weights are truncated to the
trailing `data.length` entries (`weights.slice(-data.length)`); then the
trailing `weights.length` data values are paired with the weights and the
weighted sum is divided by the sum of the (truncated) weights. -/
def calculateWeightedMovingAverage (data weights : List ℚ) : JS :=
  if data.length = 0 then JS.num 0
  else
    let ws := if data.length < weights.length then
                weights.drop (weights.length - data.length)
              else weights
    let valuesForAverage := data.drop (data.length - ws.length)
    let weightedSum := (List.zipWith (fun v w => v * w) valuesForAverage ws).sum
    let weightSum := ws.sum
    JS.div (JS.num weightedSum) (JS.num weightSum)

/-- The sub-list of `data` whose indices are congruent to `p` modulo
`period` (one seasonality bucket, built by the index loop of the source). -/
def bucket (data : List ℚ) (period p : ℕ) : List ℚ :=
  ((List.range data.length).filter (fun i => i % period = p)).map
    (fun i => data.getD i 0)

/-- Function `calculateSeasonality` from `forecast.ts`: with fewer than
`period` observations return `period` neutral factors `1`; otherwise bucket
each observation by `index % period`, average every bucket, and divide each
bucket average by the overall average.  The divisions follow JavaScript
semantics, so a zero overall average yields `NaN` (or `±∞`) factors. -/
def calculateSeasonality (data : List ℚ) (period : ℕ) : List JS :=
  if data.length < period then List.replicate period (JS.num 1)
  else
    let periodAverages := (List.range period).map
      (fun p => JS.div (JS.num (bucket data period p).sum)
        (JS.num ((bucket data period p).length : ℚ)))
    let overallAverage := JS.div (JS.num data.sum) (JS.num (data.length : ℚ))
    periodAverages.map (fun avg => JS.div avg overallAverage)

/-- Rounding to one decimal place, `Math.round(x * 10) / 10`, on rationals. -/
def round10 (x : ℚ) : ℚ := (round (x * 10) : ℚ) / 10

/-- Rounding to one decimal place, `Math.round(x * 10) / 10`, on `JS`
values (`NaN` and `±∞` pass through). -/
def round10JS (x : JS) : JS :=
  JS.div (JS.roundJS (JS.mul x (JS.num 10))) (JS.num 10)

/-- The fixed weight vector `[0.1, 0.1, 0.15, 0.15, 0.2, 0.3]` used by
`forecastDemand`. -/
def weights : List ℚ := [1/10, 1/10, 3/20, 3/20, 1/5, 3/10]

/-- Function `forecastDemand` from `forecast.ts`.  `rand i` is the
`Math.random()` draw consumed while generating the point at day offset `i`
(exactly one draw per point on either branch).  An out-of-range seasonal
lookup would be `undefined`, whose arithmetic is `NaN`, hence the `JS.nan`
default (the index is always in range). -/
def forecastDemand (productId : ℕ) (historicalDemand : List HistoricalDemand)
    (daysToForecast : ℕ) (clock : Clock) (rand : ℕ → ℚ) : List DemandForecast :=
  let demandValues := historicalDemand.map (fun data => data.demand)
  if demandValues.length = 0 then
    (List.range daysToForecast).map (fun i : ℕ =>
      { date := clock.todayDate + (i : ℤ),
        demand := JS.num (5 + rand i * 5) })
  else
    let baseline := calculateWeightedMovingAverage demandValues weights
    let seasonalFactors := calculateSeasonality demandValues 7
    (List.range daysToForecast).map (fun i : ℕ =>
      let dayOfWeek := (clock.todayDow + i) % 7
      let forecastedDemand := JS.mul baseline (seasonalFactors.getD dayOfWeek JS.nan)
      let randomFactor := JS.num (9/10 + rand i * (1/5))
      { date := clock.todayDate + (i : ℤ),
        demand := JS.max (JS.num 0) (round10JS (JS.mul forecastedDemand randomFactor)) })

example : calculateWeightedMovingAverage [4, 8] weights = JS.num (32/5) := by
  norm_num [calculateWeightedMovingAverage, weights, JS.div]
example : calculateSeasonality [1, 2, 3] 7 = List.replicate 7 (JS.num 1) := by
  norm_num [calculateSeasonality]
example :
    forecastDemand 1 [] 2 ⟨0, 3⟩ (fun _ => 1/2) =
      [⟨0, JS.num (15/2)⟩, ⟨1, JS.num (15/2)⟩] := by
  norm_num [forecastDemand, List.range_succ]
example : JS.div (JS.num 0) (JS.num 0) = JS.nan := by norm_num [JS.div]

/-! ### Helper lemmas -/

lemma round_monotone {x y : ℚ} (h : x ≤ y) : round x ≤ round y := by
  rw [round_eq, round_eq]
  exact Int.floor_mono (by linarith)

lemma round10_nonneg {x : ℚ} (h : 0 ≤ x) : 0 ≤ round10 x := by
  unfold round10
  have h0 : round ((0:ℚ) * 10) ≤ round (x * 10) := round_monotone (by nlinarith)
  simp only [zero_mul, round_zero] at h0
  positivity

lemma round10_nonpos {x : ℚ} (h : x ≤ 0) : round10 x ≤ 0 := by
  unfold round10
  have h0 : round (x * 10) ≤ round ((0:ℚ) * 10) := round_monotone (by nlinarith)
  simp only [zero_mul, round_zero] at h0
  have : ((round (x * 10) : ℤ) : ℚ) ≤ 0 := by exact_mod_cast h0
  linarith

/-- Clamping then rounding agrees with rounding then clamping on rationals. -/
lemma max_round10_comm (x : ℚ) : max 0 (round10 x) = round10 (max 0 x) := by
  rcases le_total x 0 with hx | hx
  · rw [max_eq_left (round10_nonpos hx), max_eq_left hx]
    unfold round10
    norm_num
  · rw [max_eq_right (round10_nonneg hx), max_eq_right hx]

/-- Clamped rounding `max 0 (round10 x)` is the rational
`max 0 (round (x*10)) / 10`, hence an integer multiple of `1/10`. -/
lemma max_round10_div (x : ℚ) :
    max 0 (round10 x) = ((max 0 (round (x * 10)) : ℤ) : ℚ) / 10 := by
  unfold round10
  rw [Int.cast_max, Int.cast_zero]
  rcases le_total ((round (x * 10) : ℤ) : ℚ) 0 with h | h
  · have h1 : ((round (x * 10) : ℤ) : ℚ) / 10 ≤ 0 := by linarith
    rw [max_eq_left h1, max_eq_left h, zero_div]
  · have h1 : (0 : ℚ) ≤ ((round (x * 10) : ℤ) : ℚ) / 10 := by linarith
    rw [max_eq_right h1, max_eq_right h]

lemma mul_num (x y : ℚ) : JS.mul (JS.num x) (JS.num y) = JS.num (x * y) := rfl

lemma div_num_of_ne (x y : ℚ) (hy : y ≠ 0) :
    JS.div (JS.num x) (JS.num y) = JS.num (x / y) := by
  simp [JS.div, hy]

lemma max_num (x y : ℚ) : JS.max (JS.num x) (JS.num y) = JS.num (Max.max x y) := rfl

lemma roundJS_num (x : ℚ) : JS.roundJS (JS.num x) = JS.num (round x) := rfl

lemma round10JS_num (x : ℚ) : round10JS (JS.num x) = JS.num (round10 x) := by
  unfold round10JS round10
  rw [mul_num, roundJS_num, div_num_of_ne _ _ (by norm_num)]

/-- Folding the clamped rounding of a finite value back into the rational
world. -/
lemma max0_round10JS_num (z : ℚ) :
    JS.max (JS.num 0) (round10JS (JS.num z)) = JS.num (max 0 (round10 z)) := by
  rw [round10JS_num, max_num]

/-- Clamping then rounding agrees with rounding then clamping on every `JS`
value, `NaN` and infinities included. -/
lemma max0_round10JS_comm (x : JS) :
    JS.max (JS.num 0) (round10JS x) = round10JS (JS.max (JS.num 0) x) := by
  cases x with
  | num q =>
      rw [max0_round10JS_num, max_num, round10JS_num, max_round10_comm]
  | inf s =>
      cases s <;>
        norm_num [round10JS, JS.mul, JS.roundJS, JS.div, JS.max, round10]
  | nan => simp [round10JS, JS.mul, JS.roundJS, JS.div, JS.max]

/-- Any demand of the clamped-rounded finite form is a multiple of `1/10`. -/
lemma exists_tenth (x : JS) (b q j : ℚ)
    (hx : x = JS.max (JS.num 0)
      (round10JS (JS.mul (JS.mul (JS.num b) (JS.num q)) (JS.num j)))) :
    ∃ k : ℤ, x = JS.num ((k : ℚ) / 10) := by
  subst hx
  rw [mul_num, mul_num, max0_round10JS_num]
  exact ⟨max 0 (round (b * q * j * 10)), by rw [max_round10_div]⟩

/-- Any demand of the clamped-rounded finite form is nonnegative. -/
lemma nonneg_of_eq_max0 (x : JS) (b q j : ℚ)
    (hx : x = JS.max (JS.num 0)
      (round10JS (JS.mul (JS.mul (JS.num b) (JS.num q)) (JS.num j)))) :
    JS.nonneg x := by
  subst hx
  rw [mul_num, mul_num, max0_round10JS_num]
  show (0:ℚ) ≤ max 0 (round10 (b * q * j))
  exact le_max_left _ _

lemma weights_drop_sum_pos (k : ℕ) (hk : k < 6) : 0 < (weights.drop k).sum := by
  interval_cases k <;> norm_num [weights]

/-- The truncated weight list the engine divides by, as a named value. -/
def wmaWeights (data : List ℚ) : List ℚ :=
  if data.length < weights.length then
    weights.drop (weights.length - data.length)
  else weights

lemma wma_eval (data : List ℚ) (hlen : data.length ≠ 0) :
    calculateWeightedMovingAverage data weights =
      JS.div (JS.num ((List.zipWith (fun v w => v * w)
          (data.drop (data.length - (wmaWeights data).length))
          (wmaWeights data)).sum))
        (JS.num (wmaWeights data).sum) := by
  unfold calculateWeightedMovingAverage wmaWeights
  rw [if_neg hlen]

lemma wmaWeights_sum_pos (data : List ℚ) (hlen : data.length ≠ 0) :
    0 < (wmaWeights data).sum := by
  unfold wmaWeights
  have h6 : weights.length = 6 := by norm_num [weights]
  split
  · exact weights_drop_sum_pos _ (by omega)
  · norm_num [weights]

/-- With the engine's fixed weight vector the baseline is always a finite
number. -/
lemma wma_weights_num (data : List ℚ) (hlen : data.length ≠ 0) :
    ∃ b : ℚ, calculateWeightedMovingAverage data weights = JS.num b :=
  ⟨_, (wma_eval data hlen).trans
    (div_num_of_ne _ _ (ne_of_gt (wmaWeights_sum_pos data hlen)))⟩

lemma length_calculateSeasonality (data : List ℚ) :
    (calculateSeasonality data 7).length = 7 := by
  unfold calculateSeasonality
  split <;> simp

lemma bucket_length_ne_zero (data : List ℚ) (p : ℕ) (hp : p < 7)
    (hlen : 7 ≤ data.length) : (bucket data 7 p).length ≠ 0 := by
  have hpl : p < data.length := lt_of_lt_of_le hp hlen
  have hmem : p ∈ (List.range data.length).filter (fun i => i % 7 = p) := by
    rw [List.mem_filter]
    exact ⟨List.mem_range.mpr hpl, by simp [Nat.mod_eq_of_lt hp]⟩
  intro hcon
  unfold bucket at hcon
  rw [List.length_map, List.length_eq_zero] at hcon
  rw [hcon] at hmem
  simp at hmem

/-- When the history is short or its total is nonzero, every seasonal
factor is a finite number (the division-by-zero path is not taken). -/
lemma seasonality_num (data : List ℚ) (h : data.length < 7 ∨ data.sum ≠ 0) :
    ∀ f ∈ calculateSeasonality data 7, ∃ q : ℚ, f = JS.num q := by
  intro f hf
  unfold calculateSeasonality at hf
  split at hf
  · exact ⟨1, List.eq_of_mem_replicate hf⟩
  · rename_i hlen
    have hlen7 : 7 ≤ data.length := Nat.le_of_not_lt hlen
    have hsum : data.sum ≠ 0 := by
      rcases h with h | h
      · exact absurd h hlen
      · exact h
    have hlen0 : (data.length : ℚ) ≠ 0 := by
      have hne : data.length ≠ 0 := by omega
      exact_mod_cast hne
    simp only [List.map_map, List.mem_map, List.mem_range] at hf
    obtain ⟨p, hp, rfl⟩ := hf
    have hcnt : ((bucket data 7 p).length : ℚ) ≠ 0 := by
      have := bucket_length_ne_zero data p hp hlen7
      exact_mod_cast this
    simp only [Function.comp_apply]
    rw [div_num_of_ne _ _ hlen0, div_num_of_ne _ _ hcnt,
      div_num_of_ne _ _ (div_ne_zero hsum hlen0)]
    exact ⟨_, rfl⟩

/-- The seasonal factor the engine looks up is a finite number under the
same condition. -/
lemma seasonality_getD_num (data : List ℚ) (h : data.length < 7 ∨ data.sum ≠ 0)
    (k : ℕ) (hk : k < 7) :
    ∃ q : ℚ, (calculateSeasonality data 7).getD k JS.nan = JS.num q := by
  have hlen : k < (calculateSeasonality data 7).length := by
    rw [length_calculateSeasonality]
    exact hk
  rw [List.getD_eq_getElem _ _ hlen]
  exact seasonality_num data h _ (List.getElem_mem hlen)

lemma length_forecastDemand (pid : ℕ) (hist : List HistoricalDemand) (d : ℕ)
    (c : Clock) (r : ℕ → ℚ) : (forecastDemand pid hist d c r).length = d := by
  simp only [forecastDemand]
  split <;> simp

lemma forecastDemand_getElem_empty (pid : ℕ) (d : ℕ) (c : Clock) (r : ℕ → ℚ)
    (i : ℕ) (hi : i < d) :
    (forecastDemand pid [] d c r)[i]? =
      some ⟨c.todayDate + (i : ℤ), JS.num (5 + r i * 5)⟩ := by
  simp [forecastDemand, hi]

lemma forecastDemand_getElem_main (pid : ℕ) (hist : List HistoricalDemand)
    (d : ℕ) (c : Clock) (r : ℕ → ℚ) (i : ℕ) (hne : hist ≠ []) (hi : i < d) :
    (forecastDemand pid hist d c r)[i]? =
      some ⟨c.todayDate + (i : ℤ),
            JS.max (JS.num 0) (round10JS (JS.mul
              (JS.mul (calculateWeightedMovingAverage
                  (hist.map (fun o => o.demand)) weights)
                ((calculateSeasonality (hist.map (fun o => o.demand)) 7).getD
                  ((c.todayDow + i) % 7) JS.nan))
              (JS.num (9/10 + r i * (1/5)))))⟩ := by
  simp [forecastDemand, hne, hi]

/-- A seven-observation history whose demand values are all zero: the
degenerate input that drives the seasonality division `0/0`. -/
def zeroHistory : List HistoricalDemand :=
  [⟨0, 0⟩, ⟨1, 0⟩, ⟨2, 0⟩, ⟨3, 0⟩, ⟨4, 0⟩, ⟨5, 0⟩, ⟨6, 0⟩]

/-! ### Claim theorems -/

/-- C1: for a non-empty history and any day offset `i < daysToForecast`, the
returned demand at offset `i` is `round10 (max 0 (baseline * factor * jitter))`
(in JavaScript arithmetic) for some jitter in `[0.9, 1.1]`, where the
baseline is the weighted moving average and the factor is the seasonal
profile (built by observation index mod 7) looked up at the actual
day-of-week of `today + i` (0 = Sunday). -/
theorem forecast_point_formula (pid : ℕ) (hist : List HistoricalDemand)
    (d : ℕ) (c : Clock) (r : ℕ → ℚ) (i : ℕ) (hne : hist ≠ []) (hi : i < d)
    (hr0 : 0 ≤ r i) (hr1 : r i < 1) :
    ∃ jitter : ℚ, 9/10 ≤ jitter ∧ jitter ≤ 11/10 ∧
      ((forecastDemand pid hist d c r)[i]?).map (fun p => p.demand) =
        some (round10JS (JS.max (JS.num 0) (JS.mul
          (JS.mul (calculateWeightedMovingAverage
              (hist.map (fun o => o.demand)) weights)
            ((calculateSeasonality (hist.map (fun o => o.demand)) 7).getD
              ((c.todayDow + i) % 7) JS.nan))
          (JS.num jitter)))) := by
  refine ⟨9/10 + r i * (1/5), by linarith, by linarith, ?_⟩
  rw [forecastDemand_getElem_main pid hist d c r i hne hi]
  simp only [Option.map_some']
  rw [max0_round10JS_comm]

theorem forecast_point_formula_witness :
    (([⟨0, 4⟩] : List HistoricalDemand) ≠ []) ∧ (0 < 1) ∧
    ((0 : ℚ) ≤ 1/2) ∧ ((1 : ℚ)/2 < 1) ∧
    ∃ jitter : ℚ, 9/10 ≤ jitter ∧ jitter ≤ 11/10 ∧
      ((forecastDemand 1 [⟨0, 4⟩] 1 ⟨0, 2⟩ (fun _ => 1/2))[0]?).map
          (fun p => p.demand) =
        some (round10JS (JS.max (JS.num 0) (JS.mul
          (JS.mul (calculateWeightedMovingAverage
              (([⟨0, 4⟩] : List HistoricalDemand).map (fun o => o.demand)) weights)
            ((calculateSeasonality
                (([⟨0, 4⟩] : List HistoricalDemand).map (fun o => o.demand)) 7).getD
              (((⟨0, 2⟩ : Clock).todayDow + 0) % 7) JS.nan))
          (JS.num jitter)))) :=
  ⟨by simp, by norm_num, by norm_num, by norm_num,
   forecast_point_formula 1 [⟨0, 4⟩] 1 ⟨0, 2⟩ (fun _ => 1/2) 0
     (by simp) (by norm_num) (by norm_num) (by norm_num)⟩

/-- C2: for every `daysToForecast` (in particular every positive one) and
every historical demand list, including the empty list, `forecastDemand`
returns a list of exactly `daysToForecast` forecast points. -/
theorem forecast_output_length (pid : ℕ) (hist : List HistoricalDemand)
    (d : ℕ) (c : Clock) (r : ℕ → ℚ) :
    (forecastDemand pid hist d c r).length = d := by
  simp only [forecastDemand]
  split <;> simp

set_option maxHeartbeats 1000000 in
/-- C3 (counterexample): the claim "every valid input gives only
nonnegative demands" fails on the program.  Seven observations of demand 0
are a valid input (all demands nonnegative, positive horizon, draws in
`[0,1)`), but the seasonality step divides `0/0`, so every returned demand
is `NaN`, which is not `>= 0`. -/
theorem forecast_nonneg_counterexample :
    ¬ ∀ p ∈ forecastDemand 1 zeroHistory 7 ⟨0, 0⟩ (fun _ => 0),
        JS.nonneg p.demand := by
  intro hall
  have hb : calculateWeightedMovingAverage [0, 0, 0, 0, 0, 0, 0] weights =
      JS.num 0 := by
    norm_num [calculateWeightedMovingAverage, weights, JS.div]
  have hr7 : List.range 7 = [0, 1, 2, 3, 4, 5, 6] := by decide
  have hfac : (calculateSeasonality [0, 0, 0, 0, 0, 0, 0] 7).getD 0 JS.nan =
      JS.nan := by
    norm_num [calculateSeasonality, bucket, JS.div, hr7]
  have h0 : (forecastDemand 1 zeroHistory 7 ⟨0, 0⟩ (fun _ => 0))[0]? =
      some ⟨0, JS.nan⟩ := by
    rw [forecastDemand_getElem_main 1 zeroHistory 7 ⟨0, 0⟩ (fun _ => 0) 0
      (by simp [zeroHistory]) (by norm_num)]
    show some ⟨(0 : ℤ) + ((0 : ℕ) : ℤ), JS.max (JS.num 0) (round10JS (JS.mul
        (JS.mul (calculateWeightedMovingAverage [0, 0, 0, 0, 0, 0, 0] weights)
          ((calculateSeasonality [0, 0, 0, 0, 0, 0, 0] 7).getD 0 JS.nan))
        (JS.num (9/10 + 0 * (1/5)))))⟩ =
      some (⟨0, JS.nan⟩ : DemandForecast)
    rw [hb, hfac]
    norm_num [JS.mul, round10JS, JS.roundJS, JS.div, JS.max]
  have hmem : (⟨0, JS.nan⟩ : DemandForecast) ∈
      forecastDemand 1 zeroHistory 7 ⟨0, 0⟩ (fun _ => 0) :=
    List.getElem?_mem h0
  simpa [JS.nonneg] using hall _ hmem

/-- C3 (amended): for every valid input whose demand values are all
nonnegative and which is not the degenerate division-by-zero case (history
shorter than 7, or total demand nonzero), every returned demand satisfies
the JavaScript comparison `>= 0`. -/
theorem forecast_demand_nonneg (pid : ℕ) (hist : List HistoricalDemand)
    (d : ℕ) (c : Clock) (r : ℕ → ℚ) (hh : ∀ o ∈ hist, 0 ≤ o.demand)
    (hd : 0 < d) (hr : ∀ i, 0 ≤ r i)
    (hnz : hist.length < 7 ∨ (hist.map (fun o => o.demand)).sum ≠ 0) :
    ∀ p ∈ forecastDemand pid hist d c r, JS.nonneg p.demand := by
  intro p hp
  simp only [forecastDemand] at hp
  split at hp
  · simp only [List.mem_map, List.mem_range] at hp
    obtain ⟨i, _, rfl⟩ := hp
    have := hr i
    show (0 : ℚ) ≤ 5 + r i * 5
    nlinarith
  · rename_i hlen
    simp only [List.mem_map, List.mem_range] at hp
    obtain ⟨i, _, rfl⟩ := hp
    obtain ⟨b, hb⟩ := wma_weights_num (hist.map (fun o => o.demand)) hlen
    have hnz' : (hist.map (fun o => o.demand)).length < 7 ∨
        (hist.map (fun o => o.demand)).sum ≠ 0 := by
      simpa using hnz
    obtain ⟨q, hq⟩ := seasonality_getD_num (hist.map (fun o => o.demand)) hnz'
      ((c.todayDow + i) % 7) (Nat.mod_lt _ (by norm_num))
    exact nonneg_of_eq_max0 _ b q _ (by rw [hb, hq])

theorem forecast_demand_nonneg_witness :
    (∀ o ∈ ([⟨0, 3⟩] : List HistoricalDemand), 0 ≤ o.demand) ∧ (0 < 2) ∧
    (∀ i : ℕ, 0 ≤ (fun _ : ℕ => (1:ℚ)/2) i) ∧
    (([⟨0, 3⟩] : List HistoricalDemand).length < 7 ∨
      (([⟨0, 3⟩] : List HistoricalDemand).map (fun o => o.demand)).sum ≠ 0) ∧
    ∀ p ∈ forecastDemand 1 [⟨0, 3⟩] 2 ⟨0, 4⟩ (fun _ => 1/2),
      JS.nonneg p.demand :=
  ⟨by
    intro o ho
    rw [List.mem_singleton] at ho
    subst ho
    show (0 : ℚ) ≤ 3
    norm_num,
   by norm_num, by intro i; norm_num, Or.inl (by norm_num),
   forecast_demand_nonneg 1 [⟨0, 3⟩] 2 ⟨0, 4⟩ (fun _ => 1/2)
     (by
       intro o ho
       rw [List.mem_singleton] at ho
       subst ho
       show (0 : ℚ) ≤ 3
       norm_num)
     (by norm_num) (by intro i; norm_num) (Or.inl (by norm_num))⟩

/-- C4 (counterexample): on the empty-history branch the placeholder demand
`5 + rand i * 5` is NOT rounded: with the draw `1/100` the returned demand
is `5.05 = 101/20`, which is not an integer multiple of `1/10`. -/
theorem forecast_one_decimal_counterexample :
    ¬ ∀ p ∈ forecastDemand 1 [] 1 ⟨0, 0⟩ (fun _ => 1/100),
        ∃ k : ℤ, p.demand = JS.num ((k : ℚ) / 10) := by
  intro hall
  have hfd : forecastDemand 1 [] 1 ⟨0, 0⟩ (fun _ => 1/100) =
      [⟨0, JS.num (101/20)⟩] := by
    norm_num [forecastDemand, List.range_succ]
  obtain ⟨k, hk⟩ := hall ⟨0, JS.num (101/20)⟩ (by rw [hfd]; simp)
  have hq : (101 : ℚ) / 20 = (k : ℚ) / 10 := by
    have h1 : JS.num (101/20) = JS.num ((k : ℚ) / 10) := hk
    simpa [JS.num.injEq] using h1
  have hk2 : (101 : ℚ) = (k : ℚ) * 2 := by linarith
  have hk3 : (101 : ℤ) = k * 2 := by exact_mod_cast hk2
  omega

/-- C4 (amended): for every NON-empty historical demand list outside the
degenerate division-by-zero case (history shorter than 7, or total demand
nonzero), every returned demand is an integer multiple of `1/10`.  The
empty-history fallback branch returns un-rounded placeholders, and an
all-zero history of length at least 7 returns `NaN` demands. -/
theorem forecast_one_decimal (pid : ℕ) (hist : List HistoricalDemand) (d : ℕ)
    (c : Clock) (r : ℕ → ℚ) (hne : hist ≠ [])
    (hnz : hist.length < 7 ∨ (hist.map (fun o => o.demand)).sum ≠ 0) :
    ∀ p ∈ forecastDemand pid hist d c r,
      ∃ k : ℤ, p.demand = JS.num ((k : ℚ) / 10) := by
  intro p hp
  simp only [forecastDemand, List.length_map, List.length_eq_zero, hne,
    if_false, List.mem_map, List.mem_range] at hp
  obtain ⟨i, _, rfl⟩ := hp
  have hlen : (hist.map (fun o => o.demand)).length ≠ 0 := by
    simpa using hne
  obtain ⟨b, hb⟩ := wma_weights_num (hist.map (fun o => o.demand)) hlen
  have hnz' : (hist.map (fun o => o.demand)).length < 7 ∨
      (hist.map (fun o => o.demand)).sum ≠ 0 := by
    simpa using hnz
  obtain ⟨q, hq⟩ := seasonality_getD_num (hist.map (fun o => o.demand)) hnz'
    ((c.todayDow + i) % 7) (Nat.mod_lt _ (by norm_num))
  exact exists_tenth _ b q _ (by rw [hb, hq])

theorem forecast_one_decimal_witness :
    (([⟨0, 4⟩] : List HistoricalDemand) ≠ []) ∧
    (([⟨0, 4⟩] : List HistoricalDemand).length < 7 ∨
      (([⟨0, 4⟩] : List HistoricalDemand).map (fun o => o.demand)).sum ≠ 0) ∧
    ∀ p ∈ forecastDemand 1 [⟨0, 4⟩] 1 ⟨0, 0⟩ (fun _ => 0),
      ∃ k : ℤ, p.demand = JS.num ((k : ℚ) / 10) :=
  ⟨by simp, Or.inl (by norm_num),
   forecast_one_decimal 1 [⟨0, 4⟩] 1 ⟨0, 0⟩ (fun _ => 0) (by simp)
     (Or.inl (by norm_num))⟩

/-- C5: with history `[4, 8]` the weight vector is truncated to its trailing
two entries `[0.2, 0.3]`, the baseline is exactly `6.4 = 32/5`, the
seasonality is neutral, and every returned demand is the 1-decimal rounding
of a value in the jitter band `[5.76, 7.04] = [144/25, 176/25]`. -/
theorem weight_truncation_short_data (pid : ℕ) (t₁ t₂ : ℤ) (d : ℕ) (c : Clock)
    (r : ℕ → ℚ) (i : ℕ) (hi : i < d) (hr0 : 0 ≤ r i) (hr1 : r i < 1) :
    weights.drop (weights.length - 2) = [1/5, 3/10] ∧
    calculateWeightedMovingAverage [4, 8] weights = JS.num (32/5) ∧
    ∃ v : ℚ, 144/25 ≤ v ∧ v ≤ 176/25 ∧
      ((forecastDemand pid [⟨t₁, 4⟩, ⟨t₂, 8⟩] d c r)[i]?).map
          (fun p => p.demand) =
        some (JS.num (max 0 (round10 v))) := by
  refine ⟨by norm_num [weights],
    by norm_num [calculateWeightedMovingAverage, weights, JS.div], ?_⟩
  refine ⟨32/5 * (9/10 + r i * (1/5)), by nlinarith, by nlinarith, ?_⟩
  rw [forecastDemand_getElem_main pid [⟨t₁, 4⟩, ⟨t₂, 8⟩] d c r i (by simp) hi]
  simp only [Option.map_some']
  have hmap : ([⟨t₁, 4⟩, ⟨t₂, 8⟩] : List HistoricalDemand).map
      (fun o => o.demand) = [4, 8] := rfl
  rw [hmap]
  have hw : calculateWeightedMovingAverage [4, 8] weights = JS.num (32/5) := by
    norm_num [calculateWeightedMovingAverage, weights, JS.div]
  have hs : calculateSeasonality [4, 8] 7 = List.replicate 7 (JS.num 1) := by
    norm_num [calculateSeasonality]
  have hg : ∀ k : ℕ, k < 7 →
      (List.replicate 7 (JS.num 1)).getD k JS.nan = JS.num 1 := by
    intro k hk
    interval_cases k <;> rfl
  rw [hw, hs, hg _ (Nat.mod_lt _ (by norm_num)), mul_num, mul_num,
    max0_round10JS_num, mul_one]

theorem weight_truncation_short_data_witness :
    (0 < 1) ∧ ((0 : ℚ) ≤ 0) ∧ ((0 : ℚ) < 1) ∧
    (weights.drop (weights.length - 2) = [1/5, 3/10] ∧
     calculateWeightedMovingAverage [4, 8] weights = JS.num (32/5) ∧
     ∃ v : ℚ, 144/25 ≤ v ∧ v ≤ 176/25 ∧
       ((forecastDemand 1 [⟨0, 4⟩, ⟨1, 8⟩] 1 ⟨0, 6⟩ (fun _ => 0))[0]?).map
           (fun p => p.demand) =
         some (JS.num (max 0 (round10 v)))) :=
  ⟨by norm_num, by norm_num, by norm_num,
   weight_truncation_short_data 1 0 1 1 ⟨0, 6⟩ (fun _ => 0) 0
     (by norm_num) (by norm_num) (by norm_num)⟩

/-- C6: with fewer than 7 historical points, `calculateSeasonality` returns
exactly 7 factors, each equal to 1. -/
theorem seasonality_short_history (data : List ℚ) (h : data.length < 7) :
    calculateSeasonality data 7 = List.replicate 7 (JS.num 1) ∧
    (calculateSeasonality data 7).length = 7 ∧
    ∀ f ∈ calculateSeasonality data 7, f = JS.num 1 := by
  have he : calculateSeasonality data 7 = List.replicate 7 (JS.num 1) := by
    simp [calculateSeasonality, h]
  exact ⟨he, by rw [he]; simp, fun f hf => List.eq_of_mem_replicate (he ▸ hf)⟩

theorem seasonality_short_history_witness :
    ([1, 2, 3] : List ℚ).length < 7 ∧
    (calculateSeasonality [1, 2, 3] 7 = List.replicate 7 (JS.num 1) ∧
     (calculateSeasonality [1, 2, 3] 7).length = 7 ∧
     ∀ f ∈ calculateSeasonality [1, 2, 3] 7, f = JS.num 1) :=
  ⟨by norm_num, seasonality_short_history [1, 2, 3] (by norm_num)⟩

/-- C7: with an empty history the function is total (no error path), returns
`daysToForecast` points, the point at offset `i` is
`⟨today + i, 5 + rand i * 5⟩`, and every demand is a finite value in
`[5, 10)`. -/
theorem empty_history_fallback (pid : ℕ) (d : ℕ) (c : Clock) (r : ℕ → ℚ)
    (hr : ∀ i, 0 ≤ r i ∧ r i < 1) :
    (forecastDemand pid [] d c r).length = d ∧
    (∀ i, i < d → (forecastDemand pid [] d c r)[i]? =
      some ⟨c.todayDate + (i : ℤ), JS.num (5 + r i * 5)⟩) ∧
    ∀ p ∈ forecastDemand pid [] d c r,
      ∃ q : ℚ, p.demand = JS.num q ∧ 5 ≤ q ∧ q < 10 := by
  refine ⟨length_forecastDemand pid [] d c r,
    fun i hi => forecastDemand_getElem_empty pid d c r i hi, ?_⟩
  intro p hp
  simp only [forecastDemand, List.map_nil, List.length_nil, if_pos,
    List.mem_map, List.mem_range] at hp
  obtain ⟨i, _, rfl⟩ := hp
  have h1 := (hr i).1
  have h2 := (hr i).2
  exact ⟨5 + r i * 5, rfl, by nlinarith, by nlinarith⟩

theorem empty_history_fallback_witness :
    (∀ i : ℕ, 0 ≤ (fun _ : ℕ => (1:ℚ)/4) i ∧ (fun _ : ℕ => (1:ℚ)/4) i < 1) ∧
    ((forecastDemand 1 [] 3 ⟨0, 0⟩ (fun _ => 1/4)).length = 3 ∧
     (∀ i, i < 3 → (forecastDemand 1 [] 3 ⟨0, 0⟩ (fun _ => 1/4))[i]? =
       some ⟨(0 : ℤ) + (i : ℤ), JS.num (5 + (1:ℚ)/4 * 5)⟩) ∧
     ∀ p ∈ forecastDemand 1 [] 3 ⟨0, 0⟩ (fun _ => 1/4),
       ∃ q : ℚ, p.demand = JS.num q ∧ 5 ≤ q ∧ q < 10) :=
  ⟨by intro i; norm_num,
   empty_history_fallback 1 3 ⟨0, 0⟩ (fun _ => 1/4) (by intro i; norm_num)⟩

/-- C8: on either branch, the forecast point at day offset `i` carries the
date `today + i`, and consecutive points are exactly one calendar day
apart. -/
theorem forecast_date_sequencing (pid : ℕ) (hist : List HistoricalDemand)
    (d : ℕ) (c : Clock) (r : ℕ → ℚ) (i : ℕ) (hi : i < d) :
    ((forecastDemand pid hist d c r)[i]?).map (fun p => p.date) =
      some (c.todayDate + (i : ℤ)) ∧
    (i + 1 < d →
      ((forecastDemand pid hist d c r)[i + 1]?).map (fun p => p.date) =
        some (c.todayDate + (i : ℤ) + 1)) := by
  constructor
  · by_cases hne : hist = []
    · subst hne
      rw [forecastDemand_getElem_empty pid d c r i hi]
      rfl
    · rw [forecastDemand_getElem_main pid hist d c r i hne hi]
      rfl
  · intro hi1
    by_cases hne : hist = []
    · subst hne
      rw [forecastDemand_getElem_empty pid d c r (i + 1) hi1]
      simp only [Option.map_some']
      congr 1
      push_cast
      ring
    · rw [forecastDemand_getElem_main pid hist d c r (i + 1) hne hi1]
      simp only [Option.map_some']
      congr 1
      push_cast
      ring

theorem forecast_date_sequencing_witness :
    (0 < 2) ∧
    (((forecastDemand 1 [] 2 ⟨5, 3⟩ (fun _ => 0))[0]?).map (fun p => p.date) =
        some ((5 : ℤ) + (0 : ℕ)) ∧
      (0 + 1 < 2 →
        ((forecastDemand 1 [] 2 ⟨5, 3⟩ (fun _ => 0))[0 + 1]?).map
            (fun p => p.date) =
          some ((5 : ℤ) + (0 : ℕ) + 1))) :=
  ⟨by norm_num, forecast_date_sequencing 1 [] 2 ⟨5, 3⟩ (fun _ => 0) 0 (by norm_num)⟩

/-- C9: with the random stream and the clock passed explicitly, the engine is
deterministic — identical histories, horizons, clocks and random draws give
identical outputs. -/
theorem forecast_deterministic (pid : ℕ) (h₁ h₂ : List HistoricalDemand)
    (d₁ d₂ : ℕ) (c₁ c₂ : Clock) (r₁ r₂ : ℕ → ℚ)
    (hh : h₁ = h₂) (hd : d₁ = d₂) (hc : c₁ = c₂) (hr : r₁ = r₂) :
    forecastDemand pid h₁ d₁ c₁ r₁ = forecastDemand pid h₂ d₂ c₂ r₂ := by
  rw [hh, hd, hc, hr]

theorem forecast_deterministic_witness :
    ([⟨0, 2⟩] : List HistoricalDemand) = [⟨0, 2⟩] ∧ (3 : ℕ) = 3 ∧
    (⟨0, 1⟩ : Clock) = ⟨0, 1⟩ ∧ (fun _ : ℕ => (0:ℚ)) = (fun _ : ℕ => (0:ℚ)) ∧
    forecastDemand 1 [⟨0, 2⟩] 3 ⟨0, 1⟩ (fun _ => 0) =
      forecastDemand 1 [⟨0, 2⟩] 3 ⟨0, 1⟩ (fun _ => 0) :=
  ⟨rfl, rfl, rfl, rfl,
   forecast_deterministic 1 [⟨0, 2⟩] [⟨0, 2⟩] 3 3 ⟨0, 1⟩ ⟨0, 1⟩
     (fun _ => 0) (fun _ => 0) rfl rfl rfl rfl⟩

/-- C10: the `productId` argument and the observations' date fields have no
influence on the output — only the demand values, in array order, matter. -/
theorem forecast_ignores_productId_and_dates (pid₁ pid₂ : ℕ)
    (h₁ h₂ : List HistoricalDemand) (d : ℕ) (c : Clock) (r : ℕ → ℚ)
    (hdem : h₁.map (fun o => o.demand) = h₂.map (fun o => o.demand)) :
    forecastDemand pid₁ h₁ d c r = forecastDemand pid₂ h₂ d c r := by
  simp only [forecastDemand, hdem]

theorem forecast_ignores_productId_and_dates_witness :
    ([⟨0, 2⟩] : List HistoricalDemand).map (fun o => o.demand) =
      ([⟨99, 2⟩] : List HistoricalDemand).map (fun o => o.demand) ∧
    forecastDemand 1 [⟨0, 2⟩] 3 ⟨0, 1⟩ (fun _ => 0) =
      forecastDemand 2 [⟨99, 2⟩] 3 ⟨0, 1⟩ (fun _ => 0) :=
  ⟨rfl, forecast_ignores_productId_and_dates 1 2 [⟨0, 2⟩] [⟨99, 2⟩] 3 ⟨0, 1⟩
    (fun _ => 0) rfl⟩

end SmartStock
